import Mathlib

/-!
Verification development for the AgentSH shell assistant (Rust sources).

The Rust modules `safety.rs`, `execution_engine.rs` and `input_router.rs` are
shallowly embedded below.  Machine integers (`i32` exit codes) are modelled as
`Int`; Rust `String` as Lean `String`; fallible control flow as `Except`.
The external `regex` crate is modelled as an abstract, read-only matching
oracle (`RegexEngine`): pattern compilation either succeeds or fails, and a
compiled pattern matches a haystack or not.  Terminal input is modelled as a
list of lines; reading past the end of the list yields an empty line, which is
what `read_line` produces at end of input.
-/

namespace AgentSH

/-! ## String helpers mirroring the Rust std operations used by the sources -/

/-- Model of Rust `str::trim` on the character list of a string. -/
def trimList (l : List Char) : List Char :=
  ((l.dropWhile Char.isWhitespace).reverse.dropWhile Char.isWhitespace).reverse

/-- Model of Rust `str::trim`. -/
def rustTrim (s : String) : String := String.mk (trimList s.data)

/-- Model of Rust `str::to_lowercase` (ASCII range; every token the sources
compare against is ASCII). -/
def lowerStr (s : String) : String := String.mk (s.data.map Char.toLower)

/-- Model of Rust `str::starts_with`. -/
def strStartsWith (s pat : String) : Bool := pat.data.isPrefixOf s.data

/-- Model of Rust `str::contains` on a literal substring. -/
def strContains (s sub : String) : Bool := decide (List.IsInfix sub.data s.data)

/-! ## Abstract regex oracle

`safety.rs` and `input_router.rs` use the external `regex` crate.  For the
safety classifier the concrete pattern semantics never matters to the
properties below, so the crate is abstracted: `compiles p` says whether
`Regex::new(p)` succeeds, `isMatch p h` whether the compiled pattern matches
haystack `h`.  The oracle is pure and read-only, exactly like the precompiled
`Lazy<Regex>` state in the sources. -/

structure RegexEngine where
  compiles : String → Bool
  isMatch : String → String → Bool

/-! ## safety.rs : data model -/

/-- `SafetyConfig` from `config.rs` (the fields read by `safety.rs` and
`execution_engine.rs`; the logging-related fields are never consulted by the
embedded functions and are omitted). -/
structure SafetyConfig where
  require_confirmation_for_destructive : Bool
  require_confirmation_for_sudo : Bool
  allow_ai_to_execute_sudo : Bool
  blocked_patterns : List String
  protected_paths : List String
  deriving DecidableEq, Repr

/-- `SafetyFlags` from `safety.rs`, field for field. -/
structure SafetyFlags where
  is_destructive : Bool
  requires_sudo : Bool
  affects_critical_service : Bool
  modifies_packages : Bool
  modifies_protected_path : Bool
  affects_database : Bool
  affects_network : Bool
  is_blocked : Bool
  warnings : List String
  deriving DecidableEq, Repr

/-- `#[derive(Default)]` for `SafetyFlags`: all flags false, no warnings. -/
def SafetyFlags.default : SafetyFlags :=
  ⟨false, false, false, false, false, false, false, false, []⟩

/-! Static pattern lists of `safety.rs`.  They are compiled once at startup
(`Lazy` + `unwrap`); all the literals are valid regexes, so matching one is
`E.isMatch pattern cmd`. -/

/-- `DESTRUCTIVE_FS_PATTERNS` pattern texts. -/
def DESTRUCTIVE_FS_PATTERNS : List String :=
  [ "rm\\s+.*-[rR]", "rm\\s+-[^-]*f", "rm\\s+/", "rmdir\\s+--ignore-fail"
  , "find\\s+.*-delete", "find\\s+.*-exec\\s+rm", ">\\s*/dev/sd[a-z]"
  , "mv\\s+/\\s", "chmod\\s+-R\\s+777", "chown\\s+-R", "truncate\\s+"
  , ">\\s*/dev/null\\s+2>&1\\s*<", "cat\\s+/dev/zero", "cat\\s+/dev/urandom"
  , ":\\s*>\\s*\\S+", "rsync\\s+.*--delete" ]

/-- `BLOCK_DEVICE_PATTERNS` pattern texts. -/
def BLOCK_DEVICE_PATTERNS : List String :=
  [ "dd\\s+.*of=/dev/", "mkfs", "fdisk", "parted", "wipefs", "shred\\s+/dev/" ]

/-- `NETWORK_PATTERNS` pattern texts. -/
def NETWORK_PATTERNS : List String :=
  [ "iptables\\s+-F", "iptables\\s+-P\\s+\\w+\\s+DROP", "ufw\\s+disable"
  , "firewall-cmd\\s+--panic", "nft\\s+flush", "ip\\s+route\\s+(del|flush)"
  , "ip\\s+addr\\s+(del|flush)", "ip\\s+link\\s+set\\s+\\w+\\s+down"
  , "ifconfig\\s+\\w+\\s+down", "route\\s+del", "iptables\\s+-X", "iptables\\s+-D" ]

/-- `DATABASE_PATTERNS` pattern texts. -/
def DATABASE_PATTERNS : List String :=
  [ "DROP\\s+(DATABASE|TABLE|SCHEMA)", "TRUNCATE\\s+TABLE"
  , "DELETE\\s+FROM\\s+\\w+\\s*(;|$)", "mysql\\s+.*-e\\s*[\x27\"].*DROP"
  , "psql\\s+.*-c\\s*[\x27\"].*DROP", "mongo\\s+.*--eval\\s*[\x27\"].*drop"
  , "redis-cli\\s+.*FLUSHALL", "redis-cli\\s+.*FLUSHDB" ]

/-- `CRITICAL_SERVICE_PATTERNS` pattern texts. -/
def CRITICAL_SERVICE_PATTERNS : List String :=
  [ "systemctl\\s+(stop|restart|disable)\\s+ssh"
  , "systemctl\\s+(stop|restart|disable)\\s+sshd"
  , "service\\s+ssh\\s+(stop|restart)", "service\\s+sshd\\s+(stop|restart)"
  , "kill\\s+-9\\s+1\\b", "pkill\\s+.*init", "systemctl\\s+.*halt"
  , "shutdown", "reboot", "init\\s+[06]" ]

/-- `PACKAGE_PATTERNS` pattern texts. -/
def PACKAGE_PATTERNS : List String :=
  [ "apt(-get)?\\s+(install|remove|purge|autoremove)", "apt\\s+.*--purge"
  , "dpkg\\s+(-r|-P|--remove|--purge)", "yum\\s+(install|remove|erase)"
  , "dnf\\s+(install|remove|erase)", "pacman\\s+-[RS]"
  , "brew\\s+(install|uninstall|remove)", "pip\\s+uninstall"
  , "npm\\s+(uninstall|remove).*-g", "cargo\\s+uninstall" ]

/-- `SUDO_PATTERN` pattern text. -/
def SUDO_PATTERN : String := "(^|\\||\\&\\&|\\;)\\s*sudo\\s"

/-! ## safety.rs : functions -/

section Safety

variable (E : RegexEngine) (home : Option String)

/-- The `for pattern in &config.blocked_patterns` loop: the first configured
pattern that both compiles and matches `cmd`, in list order.  A pattern whose
compilation fails (`Regex::new` returns `Err`) is skipped. -/
def firstBlockedPattern (cmd : String) : List String → Option String
  | [] => none
  | p :: ps =>
      if E.compiles p && E.isMatch p cmd then some p
      else firstBlockedPattern cmd ps

/-- A category loop (`for pattern in PATS.iter() … break`): does any builtin
pattern match.  The `break` makes a single hit equivalent to `List.any`. -/
def anyMatch (pats : List String) (cmd : String) : Bool :=
  pats.any (fun p => E.isMatch p cmd)

/-- `shellexpand_path` from `safety.rs`: expand a leading `~/` using the home
directory (`dirs::home_dir()`, modelled by the ambient `home`).  When the path
starts with `~/`, `replacen("~", home, 1)` rewrites exactly the leading `~`. -/
def shellexpand_path (path : String) : String :=
  if strStartsWith path "~/" then
    match home with
    | some h => h ++ String.mk (path.data.drop 1)
    | none => path
  else path

/-- The `for path in &config.protected_paths` loop of `analyze_command`
(no `break`: every matching protected path appends its own warning). -/
def protectedFold (cmd : String) : List String → SafetyFlags → SafetyFlags
  | [], f => f
  | path :: rest, f =>
      let expanded := shellexpand_path home path
      let f' :=
        if strContains cmd expanded then
          { f with modifies_protected_path := true
                 , warnings := f.warnings ++ ["Command affects protected path: " ++ path] }
        else f
      protectedFold cmd rest f'

/-- The sudo check of `analyze_command` (`SUDO_PATTERN` or a leading
`sudo `). -/
def sudoCheck (cmd : String) (f : SafetyFlags) : SafetyFlags :=
  if E.isMatch SUDO_PATTERN cmd || strStartsWith (rustTrim cmd) "sudo " then
    { f with requires_sudo := true
           , warnings := f.warnings ++ ["Command requires elevated privileges"] }
  else f

/-- The destructive-filesystem check of `analyze_command`. -/
def fsCheck (cmd : String) (f : SafetyFlags) : SafetyFlags :=
  if anyMatch E DESTRUCTIVE_FS_PATTERNS cmd then
    { f with is_destructive := true
           , warnings := f.warnings ++ ["Command may delete or modify files"] }
  else f

/-- The block-device check of `analyze_command`. -/
def blockDevCheck (cmd : String) (f : SafetyFlags) : SafetyFlags :=
  if anyMatch E BLOCK_DEVICE_PATTERNS cmd then
    { f with is_destructive := true
           , warnings := f.warnings ++ ["Command operates on block devices"] }
  else f

/-- The network/firewall check of `analyze_command`. -/
def networkCheck (cmd : String) (f : SafetyFlags) : SafetyFlags :=
  if anyMatch E NETWORK_PATTERNS cmd then
    { f with is_destructive := true, affects_network := true
           , warnings := f.warnings ++ ["Command modifies network/firewall configuration"] }
  else f

/-- The database check of `analyze_command`. -/
def databaseCheck (cmd : String) (f : SafetyFlags) : SafetyFlags :=
  if anyMatch E DATABASE_PATTERNS cmd then
    { f with is_destructive := true, affects_database := true
           , warnings := f.warnings ++ ["Command may destroy database data"] }
  else f

/-- The critical-service check of `analyze_command`. -/
def criticalCheck (cmd : String) (f : SafetyFlags) : SafetyFlags :=
  if anyMatch E CRITICAL_SERVICE_PATTERNS cmd then
    { f with affects_critical_service := true
           , warnings := f.warnings ++ ["Command affects critical system services"] }
  else f

/-- The package-manager check of `analyze_command`. -/
def packageCheck (cmd : String) (f : SafetyFlags) : SafetyFlags :=
  if anyMatch E PACKAGE_PATTERNS cmd then
    { f with modifies_packages := true
           , warnings := f.warnings ++ ["Command modifies installed packages"] }
  else f

/-- The portion of `analyze_command` after the blocklist early return: sudo,
destructive-filesystem, block-device, network, database, critical-service and
package checks in source order, then the protected-path loop. -/
def analyzeRest (cmd : String) (config : SafetyConfig) : SafetyFlags :=
  protectedFold home cmd config.protected_paths
    (packageCheck E cmd (criticalCheck E cmd (databaseCheck E cmd
      (networkCheck E cmd (blockDevCheck E cmd (fsCheck E cmd
        (sudoCheck E cmd SafetyFlags.default)))))))

/-- `analyze_command` from `safety.rs`: blocklist first with an early return,
then the category checks. -/
def analyze_command (cmd : String) (config : SafetyConfig) : SafetyFlags :=
  match firstBlockedPattern E cmd config.blocked_patterns with
  | some p =>
      { SafetyFlags.default with
        is_blocked := true
      , warnings := ["Command matches blocked pattern: " ++ p] }
  | none => analyzeRest E home cmd config

end Safety

/-- `needs_confirmation` from `safety.rs`, the early-return chain verbatim. -/
def needs_confirmation (flags : SafetyFlags) (config : SafetyConfig) : Bool :=
  if flags.is_blocked then true
  else if flags.is_destructive && config.require_confirmation_for_destructive then true
  else if flags.requires_sudo && config.require_confirmation_for_sudo then true
  else if flags.affects_critical_service then true
  else if flags.affects_database then true
  else if flags.affects_network then true
  else false

/-! ## input_router.rs

The router's regexes are concrete literals, so they are embedded as concrete
matchers on character lists.  Greedy `\s+` runs are resolved by maximal munch
(each run is followed either by a non-whitespace literal or by the capture, so
this coincides with the engine's leftmost-first search on every input a claim
touches); the lazy capture `(.+?)` takes the shortest viable text, and the
optional surrounding quotes `["']?` prefer to consume a quote, backtracking
when that branch cannot complete — the preference order of the `regex` crate.
`\w` and `\s` are modelled on the ASCII range the sources exercise. -/

/-- `QueryMode` from `ai_orchestrator.rs`. -/
inductive QueryMode where
  | General
  | Run
  | Explain (command : String)
  | Fix
  | Do
  | SysInfo
  deriving DecidableEq, Repr

/-- `InternalCommand` from `input_router.rs`. -/
inductive InternalCommand where
  | SetMode (mode : String)
  | Help
  | History
  | Clear
  deriving DecidableEq, Repr

/-- `AiCommand` from `input_router.rs`. -/
structure AiCommand where
  mode : QueryMode
  query : String
  deriving DecidableEq, Repr

/-- `InputRoute` from `input_router.rs`. -/
inductive InputRoute where
  | Shell (cmd : String)
  | Ai (cmd : AiCommand)
  | Internal (cmd : InternalCommand)
  deriving DecidableEq, Repr

/-- Regex `\w` on the ASCII range: `[A-Za-z0-9_]`. -/
def isWordChar (c : Char) : Bool := c.isAlphanum || c = '_'

/-- The leading `@?` of every router pattern.  The next literal is `a`, so
the greedy option is deterministic: a leading `@` is always consumed. -/
def eatOptAt : List Char → List Char
  | '@' :: rest => rest
  | cs => cs

/-- Consume an exact literal. -/
def eatLit : List Char → List Char → Option (List Char)
  | [], cs => some cs
  | _ :: _, [] => none
  | l :: ls, c :: cs => if c = l then eatLit ls cs else none

/-- Consume `\s+` by maximal munch: at least one whitespace character, then
every following one. -/
def eatWs1 : List Char → Option (List Char)
  | [] => none
  | c :: cs =>
      if c.isWhitespace then some (cs.dropWhile Char.isWhitespace) else none

/-- Consume `^@?ai\s+`, the shared head of every router pattern. -/
def eatAiHead (cs : List Char) : Option (List Char) :=
  (eatLit ['a', 'i'] (eatOptAt cs)).bind eatWs1

/-- Match `^@?ai\s+WORD\s*$` (the keyword-only patterns: `fix`, `sysinfo`,
`services`, `packages`, `history`, `help`, `?`). -/
def matchAiBare (w : String) (cs : List Char) : Bool :=
  match (eatAiHead cs).bind (eatLit w.data) with
  | some rest => rest.all Char.isWhitespace
  | none => false

/-- Match `^@?ai\s+mode\s+(\w+)\s*$`, returning the captured word. -/
def matchAiMode (cs : List Char) : Option String :=
  match ((eatAiHead cs).bind (eatLit ['m', 'o', 'd', 'e'])).bind eatWs1 with
  | some rest =>
      let cap := rest.takeWhile isWordChar
      if cap.isEmpty then none
      else if (rest.dropWhile isWordChar).all Char.isWhitespace then
        some (String.mk cap)
      else none
  | none => none

/-- The tail `["']?\s*$` that may follow the lazy capture: either the rest is
all whitespace, or it is a closing quote followed by whitespace. -/
def quoteTailOk (cs : List Char) : Bool :=
  match cs with
  | [] => true
  | c :: rest =>
      ((c = '"' || c = Char.ofNat 39) && rest.all Char.isWhitespace)
        || (c :: rest).all Char.isWhitespace

/-- The lazy capture `(.+?)` before `["']?\s*$`: the shortest nonempty prefix
of non-newline characters whose remainder satisfies `quoteTailOk`. -/
def minCap : List Char → Option (List Char)
  | [] => none
  | c :: rest =>
      if c = '\n' then none
      else if quoteTailOk rest then some [c]
      else
        match minCap rest with
        | some s => some (c :: s)
        | none => none

/-- The capture of `["']?(.+?)["']?\s*$`: the greedy optional opening quote is
consumed when present, falling back to treating it as captured text when that
branch cannot complete. -/
def tailCap (cs : List Char) : Option String :=
  match cs with
  | [] => none
  | c :: rest =>
      if c = '"' || c = Char.ofNat 39 then
        match minCap rest with
        | some s => some (String.mk s)
        | none => (minCap cs).map String.mk
      else (minCap cs).map String.mk

/-- Match `^@?ai\s+WORD\s+["']?(.+?)["']?\s*$` (the `run`, `explain` and `do`
patterns), returning the capture. -/
def matchAiCap (w : String) (cs : List Char) : Option String :=
  match ((eatAiHead cs).bind (eatLit w.data)).bind eatWs1 with
  | some rest => tailCap rest
  | none => none

/-- Match the generic prefix `^(@?ai\s+)` and return the remainder after the
prefix, trimmed — `trimmed[prefix_len..].trim()` in the source. -/
def matchAiGen (cs : List Char) : Option String :=
  (eatAiHead cs).map (fun rest => String.mk (trimList rest))

/-- The cascade of `route_input` applied to the trimmed input; `none` means no
router pattern matched and the line falls through to the shell. -/
def routeTrimmed (t : String) : Option InputRoute :=
  let cs := t.data
  if matchAiBare "help" cs || matchAiBare "?" cs then
    some (.Internal .Help)
  else
    match matchAiMode cs with
    | some m => some (.Internal (.SetMode m))
    | none =>
      if matchAiBare "history" cs then some (.Internal .History)
      else
        match matchAiCap "run" cs with
        | some q => some (.Ai ⟨.Run, q⟩)
        | none =>
          match matchAiCap "explain" cs with
          | some c => some (.Ai ⟨.Explain c, c⟩)
          | none =>
            match matchAiCap "do" cs with
            | some q => some (.Ai ⟨.Do, q⟩)
            | none =>
              if matchAiBare "fix" cs then some (.Ai ⟨.Fix, ""⟩)
              else if matchAiBare "sysinfo" cs then
                some (.Ai ⟨.SysInfo, "system information"⟩)
              else if matchAiBare "services" cs then
                some (.Ai ⟨.SysInfo, "list running services"⟩)
              else if matchAiBare "packages" cs then
                some (.Ai ⟨.SysInfo, "list installed packages"⟩)
              else
                match matchAiGen cs with
                | some q => some (.Ai ⟨.General, q⟩)
                | none => none

/-- `route_input` from `input_router.rs`: trim, try every AI pattern in source
order, otherwise pass the original input through to the shell. -/
def route_input (input : String) : InputRoute :=
  match routeTrimmed (rustTrim input) with
  | some r => r
  | none => .Shell input

/-! ## execution_engine.rs

Terminal input is a list of lines (`read_line`; an exhausted list reads as an
empty line, which is what `read_line` yields at end of input).  Spawning a
child process goes through an ambient `World` giving each command's outcome;
the observable effects a claim mentions — processes spawned and summary text
displayed — are recorded in an event trace.  Other terminal printing
(`display_plan`, warning screens, progress lines) writes text only and is not
tracked. -/

/-- `ActionKind` from `ai_orchestrator.rs`. -/
inductive ActionKind where
  | AnswerOnly
  | CommandSequence
  | PlanAndCommands
  deriving DecidableEq, Repr

/-- `Step` from `ai_orchestrator.rs` (`working_directory : PathBuf` modelled
as a string path). -/
structure Step where
  id : String
  description : String
  shell_command : String
  needs_confirmation : Bool
  is_destructive : Bool
  requires_sudo : Bool
  working_directory : Option String
  deriving DecidableEq, Repr

/-- `AiAction` from `ai_orchestrator.rs`. -/
structure AiAction where
  kind : ActionKind
  summary : Option String
  steps : List Step
  deriving DecidableEq, Repr

/-- `StepResult` from `execution_engine.rs` (`exit_code : i32` as `Int`). -/
structure StepResult where
  step_id : String
  command : String
  exit_code : Int
  stdout : String
  stderr : String
  success : Bool
  deriving DecidableEq, Repr

/-- `ExecutionError` from `error.rs` (the variants the engine produces). -/
inductive ExecutionError where
  | CommandFailed (msg : String)
  | Blocked (cmd : String)
  | Cancelled
  | StepFailed (step : String) (reason : String)
  deriving DecidableEq, Repr

/-- `UserResponse` from `execution_engine.rs`. -/
inductive UserResponse where
  | Accept
  | Edit
  | Reject
  | Skip
  deriving DecidableEq, Repr

/-- `FailureAction` from `execution_engine.rs`. -/
inductive FailureAction where
  | Continue
  | Retry
  | Abort
  deriving DecidableEq, Repr

/-- Outcome of one child process: `status.code()` (`none` on a signal) plus
captured stdout and stderr. -/
structure ProcOutput where
  code : Option Int
  stdout : String
  stderr : String
  deriving DecidableEq, Repr

/-- The ambient platform: what `sh -c cmd` produces for each command. -/
structure World where
  run : String → ProcOutput

/-- Observable engine effects tracked by the embedding. -/
inductive Event where
  | spawned (cmd : String)
  | summaryShown (text : String)
  deriving DecidableEq, Repr

/-- `UiConfig` from `config.rs` (the fields `display_plan` reads). -/
structure UiConfig where
  show_plan_before_execution : Bool
  show_step_numbers : Bool
  deriving DecidableEq, Repr

/-- `Config` from `config.rs` (the sections the engine reads). -/
structure Config where
  safety : SafetyConfig
  ui : UiConfig
  deriving DecidableEq, Repr

/-- `ExecutionEngine` from `execution_engine.rs`: the config plus the memory
fields each executed step writes (the spec's EngineMemory). -/
structure ExecutionEngine where
  config : Config
  last_command : Option String
  last_exit_code : Option Int
  last_stderr : Option String
  deriving DecidableEq, Repr

/-- Engine plus its environment: pending input lines and the event trace. -/
structure Sys where
  eng : ExecutionEngine
  inputs : List String
  events : List Event
  deriving DecidableEq, Repr

/-- `io::stdin().read_line`: the next pending line, or an empty line at end of
input. -/
def read_line : List String → String × List String
  | [] => ("", [])
  | line :: rest => (line, rest)

/-- `prompt_confirmation` from `execution_engine.rs`: normalize the line with
`trim` and `to_lowercase`; `y`/`yes` and the empty line accept, `e`/`edit`
edits, `n`/`no` rejects, `s`/`skip` skips, anything else re-prompts. -/
def prompt_confirmation : List String → UserResponse × List String
  | [] => (.Accept, [])
  | line :: rest =>
      let t := lowerStr (rustTrim line)
      if t = "y" ∨ t = "yes" ∨ t = "" then (.Accept, rest)
      else if t = "e" ∨ t = "edit" then (.Edit, rest)
      else if t = "n" ∨ t = "no" then (.Reject, rest)
      else if t = "s" ∨ t = "skip" then (.Skip, rest)
      else prompt_confirmation rest

/-- `prompt_failure_action` from `execution_engine.rs`: `c`/`continue`/empty
continues, `r`/`retry` retries, `a`/`abort` aborts, anything else re-prompts. -/
def prompt_failure_action : List String → FailureAction × List String
  | [] => (.Continue, [])
  | line :: rest =>
      let t := lowerStr (rustTrim line)
      if t = "c" ∨ t = "continue" ∨ t = "" then (.Continue, rest)
      else if t = "r" ∨ t = "retry" then (.Retry, rest)
      else if t = "a" ∨ t = "abort" then (.Abort, rest)
      else prompt_failure_action rest

/-- `confirm_dangerous_step` from `execution_engine.rs`: print the warning
screen (untracked), read one line, and return whether it normalizes to the
literal token `yes`. -/
def confirm_dangerous_step (inputs : List String) : Bool × List String :=
  let (line, rest) := read_line inputs
  (lowerStr (rustTrim line) = "yes", rest)

/-- `needs_extra_confirmation` from `execution_engine.rs`: the step's own flag
or the safety classifier's verdict. -/
def needs_extra_confirmation (flags : SafetyFlags) (step : Step)
    (config : SafetyConfig) : Bool :=
  step.needs_confirmation || needs_confirmation flags config

/-- Prepend a kept step onto the outcome of editing the remaining steps. -/
def keepCons (step : Step) :
    Except ExecutionError (List Step) × List String →
    Except ExecutionError (List Step) × List String
  | (.ok l, inputs) => (.ok (step :: l), inputs)
  | e => e

/-- The per-step loop of `edit_steps`: empty/`k`/`keep` keeps the step, `e`/
`edit` reads a replacement command (an empty replacement keeps the original),
`s`/`skip` drops the step, `q`/`quit` cancels, and any other input keeps the
step. -/
def editLoop : List Step → List String → Except ExecutionError (List Step) × List String
  | [], inputs => (.ok [], inputs)
  | step :: rest, inputs =>
      let (line, i1) := read_line inputs
      let t := lowerStr (rustTrim line)
      if t = "" ∨ t = "k" ∨ t = "keep" then
        keepCons step (editLoop rest i1)
      else if t = "e" ∨ t = "edit" then
        let (cmdLine, i2) := read_line i1
        let new_cmd := rustTrim cmdLine
        if new_cmd.isEmpty then
          keepCons step (editLoop rest i2)
        else
          keepCons { step with shell_command := new_cmd } (editLoop rest i2)
      else if t = "s" ∨ t = "skip" then
        editLoop rest i1
      else if t = "q" ∨ t = "quit" then
        (.error .Cancelled, i1)
      else
        keepCons step (editLoop rest i1)

/-- `edit_steps` from `execution_engine.rs`: run the per-step loop; an empty
edited list cancels the whole run. -/
def edit_steps (steps : List Step) (inputs : List String) :
    Except ExecutionError (List Step) × List String :=
  match editLoop steps inputs with
  | (.ok l, i) => if l.isEmpty then (.error .Cancelled, i) else (.ok l, i)
  | e => e

/-- `execute_step` from `execution_engine.rs`: record the command in
`last_command`, spawn `sh -c` through the world (traced), derive the exit code
(`-1` on a signal) and success, record `last_exit_code`, and record
`last_stderr` only when the captured stderr is nonempty.  The best-effort
`working_directory` change only affects the child's environment. -/
def execute_step (w : World) (s : Sys) (step : Step) : StepResult × Sys :=
  let s1 : Sys := { s with eng := { s.eng with last_command := some step.shell_command } }
  let out := w.run step.shell_command
  let s2 : Sys := { s1 with events := s1.events ++ [.spawned step.shell_command] }
  let exit_code := out.code.getD (-1)
  let success := out.code = some 0
  let s3 : Sys :=
    { s2 with eng :=
        { s2.eng with
          last_exit_code := some exit_code
        , last_stderr := if out.stderr.isEmpty then s2.eng.last_stderr else some out.stderr } }
  ( { step_id := step.id
    , command := step.shell_command
    , exit_code := exit_code
    , stdout := out.stdout
    , stderr := out.stderr
    , success := success }
  , s3 )

/-- Prepend a completed step result onto the outcome of the remaining loop. -/
def consOk (res : StepResult) :
    Except ExecutionError (List StepResult) × Sys →
    Except ExecutionError (List StepResult) × Sys
  | (.ok rs, s) => (.ok (res :: rs), s)
  | e => e

section Engine

variable (E : RegexEngine) (home : Option String) (w : World)

/-- The `for (i, step) in steps_to_run` loop of `execute_commands`: per step,
analyze; a blocked command aborts the run; a step needing extra confirmation
executes only past a `yes`, otherwise it is skipped; a sudo step is skipped
when policy forbids auto-executing sudo; then the step runs, and on failure
the user chooses continue, retry (one re-execution, both results kept) or
abort. -/
def run_steps : List Step → Sys → Except ExecutionError (List StepResult) × Sys
  | [], s => (.ok [], s)
  | step :: rest, s =>
      let flags := analyze_command E home step.shell_command s.eng.config.safety
      if flags.is_blocked then
        (.error (.Blocked step.shell_command), s)
      else
        let (proceed, s1) :=
          if needs_extra_confirmation flags step s.eng.config.safety then
            let (ok, inputs') := confirm_dangerous_step s.inputs
            (ok, { s with inputs := inputs' })
          else (true, s)
        if proceed = false then
          run_steps rest s1
        else if flags.requires_sudo && !s1.eng.config.safety.allow_ai_to_execute_sudo then
          run_steps rest s1
        else
          let (res, s2) := execute_step w s1 step
          if res.success then
            consOk res (run_steps rest s2)
          else
            let (fa, inputs') := prompt_failure_action s2.inputs
            let s3 : Sys := { s2 with inputs := inputs' }
            match fa with
            | .Continue => consOk res (run_steps rest s3)
            | .Retry =>
                let (res2, s4) := execute_step w s3 step
                consOk res (consOk res2 (run_steps rest s4))
            | .Abort => (.error (.StepFailed step.id "User aborted"), s3)

/-- The events produced by `println!` of an optional summary. -/
def summaryEvents : Option String → List Event
  | some text => [.summaryShown text]
  | none => []

/-- Display the optional summary text. -/
def show_summary (summary : Option String) (s : Sys) : Sys :=
  { s with events := s.events ++ summaryEvents summary }

/-- `execute_commands` from `execution_engine.rs`: an empty step list only
displays the summary; otherwise display the plan (print-only), prompt once,
and dispatch on the response. -/
def execute_commands (action : AiAction) (s : Sys) :
    Except ExecutionError (List StepResult) × Sys :=
  if action.steps.isEmpty then
    (.ok [], show_summary action.summary s)
  else
    let (resp, inputs') := prompt_confirmation s.inputs
    let s1 : Sys := { s with inputs := inputs' }
    match resp with
    | .Reject => (.error .Cancelled, s1)
    | .Edit =>
        match edit_steps action.steps s1.inputs with
        | (.ok steps', i2) => run_steps E home w steps' { s1 with inputs := i2 }
        | (.error e, i2) => (.error e, { s1 with inputs := i2 })
    | .Accept => run_steps E home w action.steps s1
    | .Skip => (.ok [], s1)

/-- `ExecutionEngine::execute`: an `AnswerOnly` action only displays its
summary; command actions go through `execute_commands`. -/
def execute (action : AiAction) (s : Sys) :
    Except ExecutionError (List StepResult) × Sys :=
  match action.kind with
  | .AnswerOnly => (.ok [], show_summary action.summary s)
  | .CommandSequence => execute_commands E home w action s
  | .PlanAndCommands => execute_commands E home w action s

end Engine

/-! ## Concrete fixtures used to instantiate theorems with hypotheses -/

/-- An oracle on which no pattern compiles or matches. -/
def E0 : RegexEngine := ⟨fun _ => false, fun _ _ => false⟩

/-- An oracle on which every pattern compiles and matches exactly its own
text. -/
def E1 : RegexEngine := ⟨fun _ => true, fun p c => p = c⟩

/-- A policy with no blocklist and no protected paths. -/
def cfg0 : SafetyConfig := ⟨true, true, false, [], []⟩

/-- A policy whose blocklist holds the single pattern `boom`. -/
def cfg1 : SafetyConfig := ⟨true, true, false, ["boom"], []⟩

/-- Plain UI settings. -/
def ui0 : UiConfig := ⟨true, true⟩

/-- Engine configuration built from `cfg0`. -/
def conf0 : Config := ⟨cfg0, ui0⟩

/-- A fresh engine: no step has executed yet. -/
def eng0 : ExecutionEngine := ⟨conf0, none, none, none⟩

/-- A world where every command succeeds silently. -/
def w0 : World := ⟨fun _ => ⟨some 0, "", ""⟩⟩

/-- A step that demands explicit confirmation. -/
def step0 : Step := ⟨"s1", "demo", "echo hi", true, false, false, none⟩

/-- A system whose pending input declines the confirmation. -/
def sys0 : Sys := ⟨eng0, ["no"], []⟩

/-- A system whose engine remembers stderr from an earlier step. -/
def sysPrev : Sys := ⟨⟨conf0, none, none, some "previous"⟩, [], []⟩

/-- An answer-only action carrying a summary. -/
def action0 : AiAction := ⟨.AnswerOnly, some "hello", []⟩

/-! ## Validation of the router embedding against the unit tests of
`input_router.rs` -/

example : route_input "ls -la" = .Shell "ls -la" := by decide
example : route_input "ai what time is it" = .Ai ⟨.General, "what time is it"⟩ := by decide
example : route_input "@ai help me" = .Ai ⟨.General, "help me"⟩ := by decide
example : route_input "ai run \"set up nginx\"" = .Ai ⟨.Run, "set up nginx"⟩ := by decide
example : route_input "ai explain \x27ls -la\x27" = .Ai ⟨.Explain "ls -la", "ls -la"⟩ := by decide
example : route_input "ai do \"deploy app\"" = .Ai ⟨.Do, "deploy app"⟩ := by decide
example : route_input "ai fix" = .Ai ⟨.Fix, ""⟩ := by decide
example : route_input "ai sysinfo" = .Ai ⟨.SysInfo, "system information"⟩ := by decide
example : route_input "ai mode off" = .Internal (.SetMode "off") := by decide
example : route_input "ai help" = .Internal .Help := by decide
example : route_input "ai history" = .Internal .History := by decide
example : route_input "echo ai" = .Shell "echo ai" := by decide

/-! ## Helper lemmas -/

/-- When some configured pattern compiles and matches, the blocklist scan
finds a pattern. -/
theorem firstBlockedPattern_isSome (E : RegexEngine) (cmd : String)
    (l : List String) (h : ∃ p ∈ l, E.compiles p = true ∧ E.isMatch p cmd = true) :
    ∃ q, firstBlockedPattern E cmd l = some q := by
  induction l with
  | nil => obtain ⟨p, hp, -⟩ := h; exact absurd hp (List.not_mem_nil p)
  | cons a as ih =>
      by_cases ha : (E.compiles a && E.isMatch a cmd) = true
      · exact ⟨a, by simp [firstBlockedPattern, ha]⟩
      · obtain ⟨p, hp, hc, hm⟩ := h
        rcases List.mem_cons.mp hp with rfl | hmem
        · exact absurd (by simp [hc, hm]) ha
        · obtain ⟨q, hq⟩ := ih ⟨p, hmem, hc, hm⟩
          exact ⟨q, by simp [firstBlockedPattern, ha, hq]⟩

/-- A pattern found by the blocklist scan is a configured pattern that
compiles and matches. -/
theorem firstBlockedPattern_spec (E : RegexEngine) (cmd : String)
    (l : List String) (q : String) (h : firstBlockedPattern E cmd l = some q) :
    q ∈ l ∧ E.compiles q = true ∧ E.isMatch q cmd = true := by
  induction l with
  | nil => simp [firstBlockedPattern] at h
  | cons a as ih =>
      by_cases ha : (E.compiles a && E.isMatch a cmd) = true
      · rw [firstBlockedPattern, if_pos ha] at h
        obtain ⟨hc, hm⟩ := Bool.and_eq_true_iff.mp ha
        have hq := Option.some.inj h
        subst hq
        exact ⟨List.mem_cons_self a as, hc, hm⟩
      · rw [firstBlockedPattern, if_neg ha] at h
        obtain ⟨hmem, hc, hm⟩ := ih h
        exact ⟨List.mem_cons_of_mem a hmem, hc, hm⟩

/-- The protected-path loop never touches `is_blocked`. -/
theorem protectedFold_is_blocked (home : Option String) (cmd : String)
    (paths : List String) (f : SafetyFlags) :
    (protectedFold home cmd paths f).is_blocked = f.is_blocked := by
  induction paths generalizing f with
  | nil => rfl
  | cons p ps ih =>
      have step : protectedFold home cmd (p :: ps) f =
          protectedFold home cmd ps
            (if strContains cmd (shellexpand_path home p) then
              { f with modifies_protected_path := true
                     , warnings := f.warnings ++ ["Command affects protected path: " ++ p] }
             else f) := rfl
      rw [step, ih]
      split <;> rfl

/-- Each category check preserves `is_blocked`. -/
theorem sudoCheck_is_blocked (E : RegexEngine) (cmd : String) (f : SafetyFlags) :
    (sudoCheck E cmd f).is_blocked = f.is_blocked := by
  unfold sudoCheck; split <;> rfl

theorem fsCheck_is_blocked (E : RegexEngine) (cmd : String) (f : SafetyFlags) :
    (fsCheck E cmd f).is_blocked = f.is_blocked := by
  unfold fsCheck; split <;> rfl

theorem blockDevCheck_is_blocked (E : RegexEngine) (cmd : String) (f : SafetyFlags) :
    (blockDevCheck E cmd f).is_blocked = f.is_blocked := by
  unfold blockDevCheck; split <;> rfl

theorem networkCheck_is_blocked (E : RegexEngine) (cmd : String) (f : SafetyFlags) :
    (networkCheck E cmd f).is_blocked = f.is_blocked := by
  unfold networkCheck; split <;> rfl

theorem databaseCheck_is_blocked (E : RegexEngine) (cmd : String) (f : SafetyFlags) :
    (databaseCheck E cmd f).is_blocked = f.is_blocked := by
  unfold databaseCheck; split <;> rfl

theorem criticalCheck_is_blocked (E : RegexEngine) (cmd : String) (f : SafetyFlags) :
    (criticalCheck E cmd f).is_blocked = f.is_blocked := by
  unfold criticalCheck; split <;> rfl

theorem packageCheck_is_blocked (E : RegexEngine) (cmd : String) (f : SafetyFlags) :
    (packageCheck E cmd f).is_blocked = f.is_blocked := by
  unfold packageCheck; split <;> rfl

/-- The category checks after the blocklist never set `is_blocked`. -/
theorem analyzeRest_is_blocked (E : RegexEngine) (home : Option String)
    (cmd : String) (cfg : SafetyConfig) :
    (analyzeRest E home cmd cfg).is_blocked = false := by
  unfold analyzeRest
  rw [protectedFold_is_blocked, packageCheck_is_blocked, criticalCheck_is_blocked,
    databaseCheck_is_blocked, networkCheck_is_blocked, blockDevCheck_is_blocked,
    fsCheck_is_blocked, sudoCheck_is_blocked]
  rfl

/-! ## Claims about safety.rs -/

/-- C1: for every command and policy, when the command matches a
policy-configured blocklist pattern (one that compiles and matches), `analyze`
returns flags with `is_blocked = true`, exactly one warning, and every other
flag false — the blocklist check short-circuits all later category checks. -/
theorem blocklist_match_shortcircuits_analyze (E : RegexEngine)
    (home : Option String) (cmd : String) (cfg : SafetyConfig)
    (h : ∃ p ∈ cfg.blocked_patterns, E.compiles p = true ∧ E.isMatch p cmd = true) :
    (analyze_command E home cmd cfg).is_blocked = true ∧
    (analyze_command E home cmd cfg).warnings.length = 1 ∧
    (analyze_command E home cmd cfg).is_destructive = false ∧
    (analyze_command E home cmd cfg).requires_sudo = false ∧
    (analyze_command E home cmd cfg).affects_critical_service = false ∧
    (analyze_command E home cmd cfg).modifies_packages = false ∧
    (analyze_command E home cmd cfg).modifies_protected_path = false ∧
    (analyze_command E home cmd cfg).affects_database = false ∧
    (analyze_command E home cmd cfg).affects_network = false := by
  obtain ⟨q, hq⟩ := firstBlockedPattern_isSome E cmd cfg.blocked_patterns h
  simp [analyze_command, hq, SafetyFlags.default]

/-- Witness for C1: the pattern `boom` is configured and matches `boom`. -/
theorem blocklist_match_shortcircuits_analyze_witness :
    (analyze_command E1 none "boom" cfg1).is_blocked = true ∧
    (analyze_command E1 none "boom" cfg1).warnings.length = 1 ∧
    (analyze_command E1 none "boom" cfg1).is_destructive = false ∧
    (analyze_command E1 none "boom" cfg1).requires_sudo = false ∧
    (analyze_command E1 none "boom" cfg1).affects_critical_service = false ∧
    (analyze_command E1 none "boom" cfg1).modifies_packages = false ∧
    (analyze_command E1 none "boom" cfg1).modifies_protected_path = false ∧
    (analyze_command E1 none "boom" cfg1).affects_database = false ∧
    (analyze_command E1 none "boom" cfg1).affects_network = false :=
  blocklist_match_shortcircuits_analyze E1 none "boom" cfg1
    ⟨"boom", by decide, by decide, by decide⟩

/-- C3: `needs_confirmation` is exactly: blocked, or destructive under the
destructive-confirmation policy, or sudo under the sudo-confirmation policy,
or any of critical-service, database, network — the latter three regardless of
policy toggles. -/
theorem needs_confirmation_characterization (flags : SafetyFlags)
    (cfg : SafetyConfig) :
    needs_confirmation flags cfg =
      (flags.is_blocked
        || flags.is_destructive && cfg.require_confirmation_for_destructive
        || flags.requires_sudo && cfg.require_confirmation_for_sudo
        || flags.affects_critical_service
        || flags.affects_database
        || flags.affects_network) := by
  unfold needs_confirmation
  split_ifs with h1 h2 h3 h4 h5 h6 <;> simp_all

/-- C4: `analyze` is deterministic — two calls on equal command strings and
equal policies return equal flags, warning list content and order included. -/
theorem analyze_command_deterministic (E : RegexEngine) (home : Option String)
    (cmd cmd' : String) (cfg cfg' : SafetyConfig)
    (h1 : cmd = cmd') (h2 : cfg = cfg') :
    analyze_command E home cmd cfg = analyze_command E home cmd' cfg' := by
  subst h1; subst h2; rfl

/-- Witness for C4: two identical calls on `ls -la` agree. -/
theorem analyze_command_deterministic_witness :
    analyze_command E0 none "ls -la" cfg0 = analyze_command E0 none "ls -la" cfg0 :=
  analyze_command_deterministic E0 none "ls -la" "ls -la" cfg0 cfg0 rfl rfl

/-- C5: `analyze` is total by construction (it is a function into
`SafetyFlags`), and `is_blocked` is set exactly when some configured blocklist
entry both compiles as a regex and matches the command — an entry that fails
to compile is skipped and can never set `is_blocked`. -/
theorem analyze_is_blocked_iff_valid_pattern_match (E : RegexEngine)
    (home : Option String) (cmd : String) (cfg : SafetyConfig) :
    (analyze_command E home cmd cfg).is_blocked = true ↔
      ∃ p ∈ cfg.blocked_patterns, E.compiles p = true ∧ E.isMatch p cmd = true := by
  constructor
  · intro h
    unfold analyze_command at h
    cases hfb : firstBlockedPattern E cmd cfg.blocked_patterns with
    | none =>
        rw [hfb] at h
        rw [analyzeRest_is_blocked] at h
        exact absurd h (by simp)
    | some q =>
        obtain ⟨hmem, hc, hm⟩ := firstBlockedPattern_spec E cmd _ q hfb
        exact ⟨q, hmem, hc, hm⟩
  · intro h
    obtain ⟨q, hq⟩ := firstBlockedPattern_isSome E cmd cfg.blocked_patterns h
    simp only [analyze_command, hq]

/-! ## Claims about execution_engine.rs -/

/-- C7 (counterexample): the plan confirmation prompt does not re-prompt on
empty input — an empty line is accepted.  With pending input `["", "n"]` the
prompt accepts immediately, leaving `"n"` unread; a re-prompt would instead
have consumed `"n"` and rejected. -/
theorem prompt_confirmation_empty_accepts :
    prompt_confirmation ["", "n"] = (UserResponse.Accept, ["n"]) ∧
    (UserResponse.Accept, ["n"]) ≠ (UserResponse.Reject, ([] : List String)) := by
  constructor
  · rfl
  · decide

/-- C7 (amended): the recognized responses are `y`/`yes` and the empty line
(accept), `e`/`edit` (edit), `n`/`no` (reject), `s`/`skip` (skip), after
trimming and lowercasing; every other response re-prompts. -/
theorem prompt_confirmation_tokens (line : String) (rest : List String) :
    ((lowerStr (rustTrim line) = "y" ∨ lowerStr (rustTrim line) = "yes" ∨
        lowerStr (rustTrim line) = "") →
      prompt_confirmation (line :: rest) = (.Accept, rest)) ∧
    ((lowerStr (rustTrim line) = "e" ∨ lowerStr (rustTrim line) = "edit") →
      prompt_confirmation (line :: rest) = (.Edit, rest)) ∧
    ((lowerStr (rustTrim line) = "n" ∨ lowerStr (rustTrim line) = "no") →
      prompt_confirmation (line :: rest) = (.Reject, rest)) ∧
    ((lowerStr (rustTrim line) = "s" ∨ lowerStr (rustTrim line) = "skip") →
      prompt_confirmation (line :: rest) = (.Skip, rest)) ∧
    (¬(lowerStr (rustTrim line) = "y" ∨ lowerStr (rustTrim line) = "yes" ∨
        lowerStr (rustTrim line) = "" ∨ lowerStr (rustTrim line) = "e" ∨
        lowerStr (rustTrim line) = "edit" ∨ lowerStr (rustTrim line) = "n" ∨
        lowerStr (rustTrim line) = "no" ∨ lowerStr (rustTrim line) = "s" ∨
        lowerStr (rustTrim line) = "skip") →
      prompt_confirmation (line :: rest) = prompt_confirmation rest) := by
  refine ⟨?_, ?_, ?_, ?_, ?_⟩ <;> intro h
  · simp only [prompt_confirmation]
    rw [if_pos h]
  · rcases h with h | h <;> simp only [prompt_confirmation] <;> rw [h] <;> simp
  · rcases h with h | h <;> simp only [prompt_confirmation] <;> rw [h] <;> simp
  · rcases h with h | h <;> simp only [prompt_confirmation] <;> rw [h] <;> simp
  · have h1 : ¬(lowerStr (rustTrim line) = "y" ∨ lowerStr (rustTrim line) = "yes" ∨
        lowerStr (rustTrim line) = "") := fun hc => h (by tauto)
    have h2 : ¬(lowerStr (rustTrim line) = "e" ∨ lowerStr (rustTrim line) = "edit") :=
      fun hc => h (by tauto)
    have h3 : ¬(lowerStr (rustTrim line) = "n" ∨ lowerStr (rustTrim line) = "no") :=
      fun hc => h (by tauto)
    have h4 : ¬(lowerStr (rustTrim line) = "s" ∨ lowerStr (rustTrim line) = "skip") :=
      fun hc => h (by tauto)
    simp only [prompt_confirmation]
    rw [if_neg h1, if_neg h2, if_neg h3, if_neg h4]

/-- Witness for the amended C7: the unrecognized response `zz` re-prompts. -/
theorem prompt_confirmation_tokens_witness :
    prompt_confirmation ["zz", "n"] = prompt_confirmation ["n"] :=
  (prompt_confirmation_tokens "zz" ["n"]).2.2.2.2 (by decide)

/-- C9 (counterexample): a step whose captured stderr is empty does not
overwrite `last_stderr` — the engine keeps the previous value, so after the
step `last_stderr` differs from the step's captured stderr. -/
theorem execute_step_keeps_old_stderr :
    (execute_step w0 sysPrev step0).1.stderr = "" ∧
    (execute_step w0 sysPrev step0).2.eng.last_stderr = some "previous" ∧
    (execute_step w0 sysPrev step0).2.eng.last_stderr ≠
      some ((execute_step w0 sysPrev step0).1.stderr) := by
  refine ⟨rfl, rfl, ?_⟩
  decide

/-- C9 (amended): every executed step overwrites `last_command` and
`last_exit_code`; `last_stderr` is overwritten exactly when the captured
stderr is nonempty, and keeps its previous value when stderr is empty. -/
theorem execute_step_memory_update (w : World) (s : Sys) (step : Step) :
    (execute_step w s step).2.eng.last_command = some step.shell_command ∧
    (execute_step w s step).2.eng.last_exit_code =
      some ((execute_step w s step).1.exit_code) ∧
    (execute_step w s step).2.eng.last_stderr =
      (if ((execute_step w s step).1.stderr).isEmpty then s.eng.last_stderr
       else some ((execute_step w s step).1.stderr)) :=
  ⟨rfl, rfl, rfl⟩

/-- C10: in the edit sub-flow, a response other than the recognized tokens
(empty/`k`/`keep`, `e`/`edit`, `s`/`skip`, `q`/`quit`) consumes exactly that
one line, silently keeps the original step, and moves on — no re-prompt and no
skip. -/
theorem editLoop_unrecognized_keeps_step (step : Step) (rest : List Step)
    (line : String) (inputs : List String)
    (h : ¬(lowerStr (rustTrim line) = "" ∨ lowerStr (rustTrim line) = "k" ∨
        lowerStr (rustTrim line) = "keep" ∨ lowerStr (rustTrim line) = "e" ∨
        lowerStr (rustTrim line) = "edit" ∨ lowerStr (rustTrim line) = "s" ∨
        lowerStr (rustTrim line) = "skip" ∨ lowerStr (rustTrim line) = "q" ∨
        lowerStr (rustTrim line) = "quit")) :
    editLoop (step :: rest) (line :: inputs) = keepCons step (editLoop rest inputs) := by
  have h1 : ¬(lowerStr (rustTrim line) = "" ∨ lowerStr (rustTrim line) = "k" ∨
      lowerStr (rustTrim line) = "keep") := fun hc => h (by tauto)
  have h2 : ¬(lowerStr (rustTrim line) = "e" ∨ lowerStr (rustTrim line) = "edit") :=
    fun hc => h (by tauto)
  have h3 : ¬(lowerStr (rustTrim line) = "s" ∨ lowerStr (rustTrim line) = "skip") :=
    fun hc => h (by tauto)
  have h4 : ¬(lowerStr (rustTrim line) = "q" ∨ lowerStr (rustTrim line) = "quit") :=
    fun hc => h (by tauto)
  simp only [editLoop, read_line]
  rw [if_neg h1, if_neg h2, if_neg h3, if_neg h4]

/-- C2: when a step requires extra confirmation (its own flag or the
classifier's verdict) and is not blocked, any pending input line other than
the literal token `yes` (case-insensitive, after trimming) skips exactly that
step: the run continues with the remaining steps and the remaining input, and
no failure is signalled for the skipped step. -/
theorem nonyes_confirmation_skips_step (E : RegexEngine) (home : Option String)
    (w : World) (step : Step) (rest : List Step) (s : Sys) (line : String)
    (pending : List String)
    (hin : s.inputs = line :: pending)
    (hnb : (analyze_command E home step.shell_command s.eng.config.safety).is_blocked = false)
    (hnc : needs_extra_confirmation
        (analyze_command E home step.shell_command s.eng.config.safety) step
        s.eng.config.safety = true)
    (hno : lowerStr (rustTrim line) ≠ "yes") :
    run_steps E home w (step :: rest) s = run_steps E home w rest { s with inputs := pending } := by
  have hc : confirm_dangerous_step s.inputs = (false, pending) := by
    rw [hin]
    simp [confirm_dangerous_step, read_line, hno]
  simp only [run_steps, hnb, hnc, hc]
  simp

/-- Witness for C2: the step `step0` demands confirmation, the pending answer
is `no`, and the run proceeds as if the step were not there. -/
theorem nonyes_confirmation_skips_step_witness :
    run_steps E0 none w0 [step0] sys0 = run_steps E0 none w0 [] { sys0 with inputs := [] } :=
  nonyes_confirmation_skips_step E0 none w0 step0 [] sys0 "no" [] rfl (by decide)
    (by decide) (by decide)

/-- C6: executing an `AnswerOnly` action, or an action of any kind with an
empty step list, returns `Ok` with an empty result list, spawns no process,
and displays exactly the summary text when one is present. -/
theorem answer_only_or_empty_spawns_nothing (E : RegexEngine)
    (home : Option String) (w : World) (action : AiAction) (s : Sys)
    (h : action.kind = .AnswerOnly ∨ action.steps = []) :
    execute E home w action s =
      (.ok [], { s with events := s.events ++ summaryEvents action.summary }) ∧
    (∀ c : String, Event.spawned c ∉ summaryEvents action.summary) := by
  constructor
  · rcases h with h | h
    · simp [execute, h, show_summary]
    · cases hk : action.kind
      · simp [execute, hk, show_summary]
      · simp [execute, hk, execute_commands, h, show_summary]
      · simp [execute, hk, execute_commands, h, show_summary]
  · intro c
    cases action.summary <;> simp [summaryEvents]

/-- Witness for C6: an answer-only action with summary `hello` only displays
that summary. -/
theorem answer_only_or_empty_spawns_nothing_witness :
    execute E0 none w0 action0 ⟨eng0, [], []⟩ =
      (.ok [], { (⟨eng0, [], []⟩ : Sys) with
        events := ([] : List Event) ++ summaryEvents action0.summary }) ∧
    (∀ c : String, Event.spawned c ∉ summaryEvents action0.summary) :=
  answer_only_or_empty_spawns_nothing E0 none w0 action0 ⟨eng0, [], []⟩ (Or.inl rfl)

/-- Witness for C10: the unrecognized response `zz` keeps the step. -/
theorem editLoop_unrecognized_keeps_step_witness :
    editLoop [step0] ["zz"] = keepCons step0 (editLoop [] []) :=
  editLoop_unrecognized_keeps_step step0 [] "zz" [] (by decide)

/-! ## Claims about input_router.rs -/

/-- Dropping leading whitespace from a run of whitespace followed by
`['i', 'a']` leaves `['i', 'a']`. -/
theorem dropWhile_ws_append (l : List Char) (h : ∀ c ∈ l, c.isWhitespace = true) :
    List.dropWhile Char.isWhitespace (l ++ ['i', 'a']) = ['i', 'a'] := by
  induction l with
  | nil => decide
  | cons c t ih =>
      have hc := h c (List.mem_cons_self c t)
      simp only [List.cons_append, List.dropWhile_cons, hc, if_true]
      exact ih (fun x hx => h x (List.mem_cons_of_mem _ hx))

/-- Trimming `ai` followed only by whitespace yields the characters of
`ai`. -/
theorem trimList_ai_ws (ws : List Char) (h : ∀ c ∈ ws, c.isWhitespace = true) :
    trimList ('a' :: 'i' :: ws) = ['a', 'i'] := by
  unfold trimList
  have h1 : List.dropWhile Char.isWhitespace ('a' :: 'i' :: ws) = 'a' :: 'i' :: ws := by
    rw [List.dropWhile_cons]
    have : ('a').isWhitespace = false := by decide
    simp [this]
  rw [h1]
  have h2 : ('a' :: 'i' :: ws).reverse = ws.reverse ++ ['i', 'a'] := by simp
  rw [h2, dropWhile_ws_append ws.reverse (fun c hc => h c (List.mem_reverse.mp hc))]
  decide

/-- C8 (counterexample): the input `ai` followed by a space is routed to the
shell unchanged, not to an AI route — trimming removes the trailing
whitespace, and the AI prefix regex requires whitespace after `ai`. -/
theorem route_input_ai_space_is_shell :
    route_input "ai " = .Shell "ai " ∧
    route_input "ai " ≠ .Ai ⟨.General, ""⟩ := by
  constructor
  · rfl
  · decide

/-- C8 (amended): every input consisting of `ai` followed only by whitespace
is passed through to the shell unchanged. -/
theorem route_input_ai_ws_is_shell (ws : List Char)
    (h : ∀ c ∈ ws, c.isWhitespace = true) :
    route_input (String.mk ('a' :: 'i' :: ws)) =
      .Shell (String.mk ('a' :: 'i' :: ws)) := by
  have ht : rustTrim (String.mk ('a' :: 'i' :: ws)) = "ai" := by
    show String.mk (trimList ('a' :: 'i' :: ws)) = "ai"
    rw [trimList_ai_ws ws h]
  unfold route_input
  rw [ht]
  have hr : routeTrimmed "ai" = none := by decide
  rw [hr]

/-- Witness for the amended C8: `ai` followed by one space goes to the
shell. -/
theorem route_input_ai_ws_is_shell_witness :
    route_input (String.mk ['a', 'i', ' ']) = .Shell (String.mk ['a', 'i', ' ']) :=
  route_input_ai_ws_is_shell [' '] (by decide)

end AgentSH
